import Mathlib

/-!
Verification of the delegated-stake accounting engine
(`src/programs/stake_api/src/stake_state.rs`).

The Rust code is shallowly embedded:
* `u64` values are `Nat`; where the Rust arithmetic can wrap we reduce
  modulo `2^64` (`wadd`/`wsub`/`wmul`); Rust `saturating_sub` is the
  truncated `Nat` subtraction.
* `f64` values are exact rationals in an unnormalized fraction type
  `Frac`; every Rust floating-point operation rounds its exact rational
  result to the nearest IEEE-754 binary64 value (ties to even) via
  `roundF64`.  The quantities arising here stay in the normal range, so
  overflow to infinity and subnormal rounding are not modelled.
* the bounded `loop`s of the warmup/cooldown arithmetic are expressed by
  structural recursion on a fuel argument; the callers pass fuel that
  dominates the Rust iteration bound (the loop advances `next_epoch` by
  one per iteration and stops at `epoch`), and fuel-stability lemmas
  below show the result does not depend on the fuel beyond that bound.
* accounts carry parsed data (`AccountData`); deserialization failure of
  a stake (resp. vote) account is any non-`stake` (resp. non-`vote`)
  payload and surfaces as `InvalidAccountData`, as in the runtime.
  `set_state` on an account whose data buffer already held a parsed
  `StakeState` cannot fail and is modelled as an infallible update.
-/

set_option maxRecDepth 100000

/-! ## u64 arithmetic -/

def U64MOD : Nat := 2^64

def U64MAX : Nat := 2^64 - 1

/-- Wrapping `u64` addition. -/
def wadd (a b : Nat) : Nat := (a + b) % U64MOD

/-- Wrapping `u64` subtraction. -/
def wsub (a b : Nat) : Nat := (a % U64MOD + (U64MOD - b % U64MOD)) % U64MOD

/-- Wrapping `u64` multiplication. -/
def wmul (a b : Nat) : Nat := (a * b) % U64MOD

/-! ## Exact model of IEEE-754 binary64 arithmetic

A `Frac` is an unnormalized fraction (kept unnormalized so that every
operation is structurally recursive and kernel-reducible).  Every
constructor used below keeps the denominator nonzero. -/

structure Frac where
  num : Int
  den : Nat
deriving DecidableEq

def Frac.ofNat (n : Nat) : Frac := ⟨n, 1⟩

def Frac.neg (a : Frac) : Frac := ⟨-a.num, a.den⟩

def Frac.add (a b : Frac) : Frac := ⟨a.num * b.den + b.num * a.den, a.den * b.den⟩

def Frac.mul (a b : Frac) : Frac := ⟨a.num * b.num, a.den * b.den⟩

def Frac.div (a b : Frac) : Frac :=
  if b.num < 0 then ⟨-(a.num * b.den), a.den * b.num.natAbs⟩
  else ⟨a.num * b.den, a.den * b.num.natAbs⟩

/-- Value order on fractions (denominators are nonnegative). -/
def Frac.lt (a b : Frac) : Prop := a.num * b.den < b.num * a.den

instance (a b : Frac) : Decidable (Frac.lt a b) := by
  unfold Frac.lt
  infer_instance

def Frac.le (a b : Frac) : Prop := a.num * b.den ≤ b.num * a.den

instance (a b : Frac) : Decidable (Frac.le a b) := by
  unfold Frac.le
  infer_instance

/-- Binary digit count, by structural recursion on a fuel argument
(`fuel = n` always suffices). -/
def bitsAux : Nat → Nat → Nat
  | 0, _ => 0
  | fuel+1, n => if n = 0 then 0 else bitsAux fuel (n / 2) + 1

/-- Number of binary digits of `n` (0 for 0). -/
def bits (n : Nat) : Nat := bitsAux n n

/-- Multiply a fraction by `2^k`. -/
def Frac.mulPow2 (q : Frac) (k : Int) : Frac :=
  if 0 ≤ k then ⟨q.num * ((2:Nat)^k.toNat : Nat), q.den⟩
  else ⟨q.num, q.den * 2^(-k).toNat⟩

/-- Nearest integer to a nonnegative fraction, ties to even. -/
def rnNE (q : Frac) : Int :=
  let f := q.num / (q.den : Int)
  let r2 := 2 * q.num - 2 * f * q.den
  if r2 < (q.den : Int) then f
  else if (q.den : Int) < r2 then f + 1
  else if f % 2 = 0 then f else f + 1

/-- Binary exponent of a positive fraction: the `e` with `2^e ≤ q < 2^(e+1)`. -/
def qexp (q : Frac) : Int :=
  let c : Int := (bits q.num.toNat : Int) - (bits q.den : Int)
  if Frac.le (Frac.mulPow2 ⟨1, 1⟩ c) q then c else c - 1

/-- Round a positive fraction to 53 significant bits, ties to even. -/
def roundPos (q : Frac) : Frac :=
  let e := qexp q
  Frac.mulPow2 ⟨rnNE (Frac.mulPow2 q (52 - e)), 1⟩ (e - 52)

/-- Round an exact rational to the nearest IEEE-754 binary64 value
(normal range; ties to even). -/
def roundF64 (q : Frac) : Frac :=
  if q.num = 0 then ⟨0, 1⟩
  else if q.num < 0 then Frac.neg (roundPos ⟨-q.num, q.den⟩)
  else roundPos q

/-- Rust `x as f64` on a `u64`. -/
def f64ofNat (n : Nat) : Frac := roundF64 (Frac.ofNat n)

/-- `f64` addition: round the exact sum. -/
def addF64 (a b : Frac) : Frac := roundF64 (Frac.add a b)

/-- `f64` multiplication: round the exact product. -/
def mulF64 (a b : Frac) : Frac := roundF64 (Frac.mul a b)

/-- `f64` division: round the exact quotient.  Every division site in the
source is guarded by a nonzero-denominator test, so the `0` fallback is
never reached from the embedded code. -/
def divF64 (a b : Frac) : Frac :=
  if b.num = 0 then ⟨0, 1⟩ else roundF64 (Frac.div a b)

/-- Rust `x as u64` on an `f64`: truncate toward zero, clamping at the
`u64` range. -/
def f64toU64 (q : Frac) : Nat :=
  if q.num < 0 then 0 else min (q.num / (q.den : Int)).toNat U64MAX

/-! ## Stake history (sysvar)

Modelled from the spec (§4.2), the sysvar's source not being part of the
repository snapshot: an ordered `epoch → entry` mapping with point
lookup; here an association list. -/

structure StakeHistoryEntry where
  effective : Nat
  activating : Nat
  deactivating : Nat
deriving DecidableEq

abbrev StakeHistory := List (Nat × StakeHistoryEntry)

def StakeHistory.get (h : StakeHistory) (epoch : Nat) : Option StakeHistoryEntry :=
  (List.find? (fun p => p.1 == epoch) h).map (fun p => p.2)

/-! ## Config

Modelled from the spec (§3, §4.1), `config.rs` not being part of the
repository snapshot: warmup and cooldown rates are `f64` values, default
0.25% ≈ 0.0025 each.  The reserved `slash_penalty` field is unused by
every operation treated here and is not modelled. -/

structure Config where
  warmup_rate : Frac
  cooldown_rate : Frac
deriving DecidableEq

/-- The binary64 value of the literal `0.0025`. -/
def default_rate : Frac := roundF64 ⟨1, 400⟩

def default_config : Config := ⟨default_rate, default_rate⟩

/-! ## Stake -/

structure Stake where
  voter_pubkey : Nat
  credits_observed : Nat
  stake : Nat
  activation_epoch : Nat
  deactivation_epoch : Nat
  config : Config
deriving DecidableEq

/-- Rust `Stake::is_bootstrap`. -/
def Stake.is_bootstrap (s : Stake) : Prop := s.activation_epoch = U64MAX

instance (s : Stake) : Decidable (Stake.is_bootstrap s) := by
  unfold Stake.is_bootstrap
  infer_instance

/-- Increment of the warmup loop body:
`((weight * entry.effective as f64 * warmup_rate) as u64).max(1)` with
`weight = (stake - effective_stake) as f64 / entry.activating as f64`. -/
def warmup_inc (stake : Nat) (rate : Frac) (effective_stake : Nat)
    (entry : StakeHistoryEntry) : Nat :=
  max (f64toU64 (mulF64 (mulF64 (divF64 (f64ofNat (wsub stake effective_stake))
    (f64ofNat entry.activating)) (f64ofNat entry.effective)) rate)) 1

/-- Decrement of the cooldown loop body:
`((weight * entry.effective as f64 * cooldown_rate) as u64).max(1)` with
`weight = effective_stake as f64 / entry.deactivating as f64`. -/
def cooldown_dec (rate : Frac) (effective_stake : Nat)
    (entry : StakeHistoryEntry) : Nat :=
  max (f64toU64 (mulF64 (mulF64 (divF64 (f64ofNat effective_stake)
    (f64ofNat entry.deactivating)) (f64ofNat entry.effective)) rate)) 1

/-- One iteration of the warmup `loop` of `Stake::stake_and_activating`
(lines 160-186): either break with a final `effective_stake`
(`Sum.inl`) or continue into the next epoch with the updated
`effective_stake` and that epoch's entry (`Sum.inr`). -/
def warmup_step (stake : Nat) (rate : Frac) (history : StakeHistory) (epoch : Nat)
    (next_epoch effective_stake : Nat) (entry : StakeHistoryEntry) :
    Nat ⊕ (Nat × StakeHistoryEntry) :=
  if entry.activating = 0 then Sum.inl effective_stake
  else
    let e2 := wadd effective_stake (warmup_inc stake rate effective_stake entry)
    if stake ≤ e2 then Sum.inl stake
    else if epoch ≤ wadd next_epoch 1 then Sum.inl e2
    else
      match StakeHistory.get history (wadd next_epoch 1) with
      | none => Sum.inl e2
      | some en => Sum.inr (e2, en)

/-- The warmup `loop`, driven by `warmup_step`.  Fuel only bounds the
recursion; any fuel with `epoch ≤ next_epoch + 1 + fuel` yields the Rust
behaviour (see the fuel-stability lemmas: the fuel-exhausted `Sum.inr`
case of `warmup_loop 0` is unreachable then). -/
def warmup_loop (stake : Nat) (rate : Frac) (history : StakeHistory) (epoch : Nat) :
    Nat → Nat → Nat → StakeHistoryEntry → Nat
  | 0, next_epoch, effective_stake, entry =>
    (match warmup_step stake rate history epoch next_epoch effective_stake entry with
     | Sum.inl r => r
     | Sum.inr p => p.1)
  | fuel+1, next_epoch, effective_stake, entry =>
    (match warmup_step stake rate history epoch next_epoch effective_stake entry with
     | Sum.inl r => r
     | Sum.inr p => warmup_loop stake rate history epoch fuel (wadd next_epoch 1) p.1 p.2)

/-- The values of `effective_stake` at which the warmup loop evaluates the
weight expression `(self.stake - effective_stake) as f64 / ...`; mirrors
`warmup_loop` exactly (the weight is evaluated iff `entry.activating ≠ 0`). -/
def warmup_weight_args (stake : Nat) (rate : Frac) (history : StakeHistory) (epoch : Nat) :
    Nat → Nat → Nat → StakeHistoryEntry → List Nat
  | 0, _, effective_stake, entry =>
    if entry.activating = 0 then [] else [effective_stake]
  | fuel+1, next_epoch, effective_stake, entry =>
    if entry.activating = 0 then []
    else
      effective_stake ::
        (match warmup_step stake rate history epoch next_epoch effective_stake entry with
         | Sum.inl _ => []
         | Sum.inr p =>
           warmup_weight_args stake rate history epoch fuel (wadd next_epoch 1) p.1 p.2)

/-- One iteration of the cooldown `loop` of
`Stake::stake_activating_and_deactivating` (lines 108-134);
`saturating_sub` is the truncated `Nat` subtraction. -/
def cooldown_step (rate : Frac) (history : StakeHistory) (epoch : Nat)
    (next_epoch effective_stake : Nat) (entry : StakeHistoryEntry) :
    Nat ⊕ (Nat × StakeHistoryEntry) :=
  if entry.deactivating = 0 then Sum.inl effective_stake
  else
    let e2 := effective_stake - cooldown_dec rate effective_stake entry
    if e2 = 0 then Sum.inl e2
    else if epoch ≤ wadd next_epoch 1 then Sum.inl e2
    else
      match StakeHistory.get history (wadd next_epoch 1) with
      | none => Sum.inl e2
      | some en => Sum.inr (e2, en)

/-- The cooldown `loop`, driven by `cooldown_step`; same fuel discipline
as `warmup_loop`. -/
def cooldown_loop (rate : Frac) (history : StakeHistory) (epoch : Nat) :
    Nat → Nat → Nat → StakeHistoryEntry → Nat
  | 0, next_epoch, effective_stake, entry =>
    (match cooldown_step rate history epoch next_epoch effective_stake entry with
     | Sum.inl r => r
     | Sum.inr p => p.1)
  | fuel+1, next_epoch, effective_stake, entry =>
    (match cooldown_step rate history epoch next_epoch effective_stake entry with
     | Sum.inl r => r
     | Sum.inr p => cooldown_loop rate history epoch fuel (wadd next_epoch 1) p.1 p.2)

/-- Rust `Stake::stake_and_activating` (lines 142-192). -/
def Stake.stake_and_activating (s : Stake) (epoch : Nat) (history : Option StakeHistory) :
    Nat × Nat :=
  if s.is_bootstrap then (s.stake, 0)
  else if epoch = s.activation_epoch then (0, s.stake)
  else if epoch < s.activation_epoch then (0, 0)
  else
    match history with
    | none => (s.stake, 0)
    | some h =>
      match StakeHistory.get h s.activation_epoch with
      | none => (s.stake, 0)
      | some entry =>
        let eff := warmup_loop s.stake s.config.warmup_rate h epoch
          (epoch - s.activation_epoch) s.activation_epoch 0 entry
        (eff, wsub s.stake eff)

/-- Rust `Stake::stake_activating_and_deactivating` (lines 84-140). -/
def Stake.stake_activating_and_deactivating (s : Stake) (epoch : Nat)
    (history : Option StakeHistory) : Nat × Nat × Nat :=
  let p := s.stake_and_activating epoch history
  if epoch < s.deactivation_epoch then (p.1, p.2, 0)
  else if epoch = s.deactivation_epoch then (p.1, 0, min p.1 s.stake)
  else
    match history with
    | none => (0, 0, 0)
    | some h =>
      match StakeHistory.get h s.deactivation_epoch with
      | none => (0, 0, 0)
      | some entry =>
        let eff := cooldown_loop s.config.cooldown_rate h epoch
          (epoch - s.deactivation_epoch) s.deactivation_epoch p.1 entry
        (eff, 0, eff)

/-- Rust `Stake::stake(epoch, history)` (lines 80-82): the effective
component of the triple. -/
def Stake.stake_at (s : Stake) (epoch : Nat) (history : Option StakeHistory) : Nat :=
  (s.stake_activating_and_deactivating epoch history).1

/-- Rust `Stake::deactivate` (lines 279-281). -/
def Stake.deactivate (s : Stake) (epoch : Nat) : Stake :=
  { s with deactivation_epoch := epoch }

/-! ## Vote state (external interface)

Modelled from the spec (§6), the vote program not being part of the
repository snapshot.  `credits` is the lifetime credit counter;
`epoch_credits` yields `(epoch, credits_at_end, credits_at_start)`
snapshots of that counter, in ascending epoch order and chained
(`credits_at_end[i] = credits_at_start[i+1]`); `commission_split`
returns `(voter_share, staker_share, is_split)`. -/

structure VoteState where
  credits : Nat
  epoch_credits : List (Nat × Nat × Nat)
  commission_split : Frac → Frac × Frac × Bool

/-- The §6 contract on `epoch_credits`, as snapshots of the nondecreasing
lifetime counter counted by `credits`: epochs ascending, entries chained,
each entry nondecreasing, and every snapshot at most the lifetime count. -/
def epochCreditsWF (credits : Nat) : List (Nat × Nat × Nat) → Bool
  | [] => true
  | e :: rest =>
    decide (e.2.2 ≤ e.2.1) && decide (e.2.1 ≤ credits) &&
    (match rest with
     | [] => true
     | e2 :: _ => decide (e.1 < e2.1) && decide (e.2.1 = e2.2.2)) &&
    epochCreditsWF credits rest

/-- One iteration of the `for` loop of `Stake::calculate_rewards`
(lines 212-232).  The accumulator is `(credits_observed, total_rewards)`;
the entry is `(epoch, credits, prev_credits)`.  The epoch contribution is
computed with the running watermark before the watermark tightens. -/
def calc_step (s : Stake) (point_value : Frac) (stake_history : Option StakeHistory)
    (acc : Nat × Frac) (ecp : Nat × Nat × Nat) : Nat × Frac :=
  let epoch_credits : Nat :=
    if s.credits_observed < ecp.2.2 then wsub ecp.2.1 ecp.2.2
    else if s.credits_observed < ecp.2.1 then wsub ecp.2.1 acc.1
    else 0
  (max acc.1 ecp.2.1,
   addF64 acc.2 (mulF64 (f64ofNat (wmul (Stake.stake_at s ecp.1 stake_history) epoch_credits))
     point_value))

/-- Rust `Stake::calculate_rewards` (lines 200-250).  Returns
`(voter_rewards, staker_rewards, new_credits_observed)`. -/
def Stake.calculate_rewards (s : Stake) (point_value : Frac) (vote_state : VoteState)
    (stake_history : Option StakeHistory) : Option (Nat × Nat × Nat) :=
  if vote_state.credits ≤ s.credits_observed then none
  else
    let acc := vote_state.epoch_credits.foldl (calc_step s point_value stake_history)
      (s.credits_observed, ⟨0, 1⟩)
    if Frac.lt acc.2 (Frac.ofNat 1) then none
    else
      let split := vote_state.commission_split acc.2
      if (Frac.lt split.1 (Frac.ofNat 1) ∨ Frac.lt split.2.1 (Frac.ofNat 1)) ∧
          split.2.2 = true then none
      else some (f64toU64 split.1, f64toU64 split.2.1, acc.1)

/-! ## Accounts, sysvars, errors -/

inductive InstructionError where
  | MissingRequiredSignature : InstructionError
  | InsufficientFunds : InstructionError
  | InvalidAccountData : InstructionError
  | InvalidArgument : InstructionError
  | UnbalancedInstruction : InstructionError
  | CustomError : Nat → InstructionError
deriving DecidableEq

inductive StakeState where
  | Uninitialized : StakeState
  | Stake : Stake → StakeState
  | RewardsPool : StakeState
deriving DecidableEq

/-- Parsed account data: a stake account's `StakeState`, a vote account's
`VoteState`, or anything that deserializes as neither. -/
inductive AccountData where
  | stake : StakeState → AccountData
  | vote : VoteState → AccountData
  | other : AccountData

structure Account where
  lamports : Nat
  data : AccountData

/-- A `KeyedAccount`: pubkey, whether the key signed, and the account.
`signer = false` models `signer_key().is_none()`. -/
structure KeyedAccount where
  key : Nat
  signer : Bool
  account : Account

structure Clock where
  epoch : Nat

structure Rewards where
  validator_point_value : Frac

/-! ## Stake-account operations (lines 313-443)

Each operation returns its outcome together with every account it
received; the returned accounts are the post-call states (errors return
before any mutation in the source, so error outcomes carry the inputs). -/

/-- Rust `delegate_stake` (lines 314-342). -/
def delegate_stake (self : KeyedAccount) (vote_account : KeyedAccount) (new_stake : Nat)
    (clock : Clock) (config : Config) : Except InstructionError Unit × KeyedAccount :=
  if self.signer = false then
    (Except.error InstructionError.MissingRequiredSignature, self)
  else if self.account.lamports < new_stake then
    (Except.error InstructionError.InsufficientFunds, self)
  else
    match self.account.data with
    | AccountData.stake StakeState.Uninitialized =>
      match vote_account.account.data with
      | AccountData.vote vote_state =>
        (Except.ok (),
         { self with account := { self.account with data := AccountData.stake (StakeState.Stake
             ⟨vote_account.key, vote_state.credits, new_stake, clock.epoch, U64MAX, config⟩) } })
      | _ => (Except.error InstructionError.InvalidAccountData, self)
    | AccountData.stake _ => (Except.error InstructionError.InvalidAccountData, self)
    | _ => (Except.error InstructionError.InvalidAccountData, self)

/-- Rust `deactivate_stake` (lines 343-359).  The `vote_account`
parameter is reserved for slashing and never inspected. -/
def deactivate_stake (self : KeyedAccount) (vote_account : KeyedAccount) (clock : Clock) :
    Except InstructionError Unit × KeyedAccount :=
  if self.signer = false then
    (Except.error InstructionError.MissingRequiredSignature, self)
  else
    match self.account.data with
    | AccountData.stake (StakeState.Stake stake) =>
      let d2 := AccountData.stake (StakeState.Stake (Stake.deactivate stake clock.epoch))
      (Except.ok (), { self with account := { self.account with data := d2 } })
    | _ => (Except.error InstructionError.InvalidAccountData, self)

/-- Rust `redeem_vote_credits` (lines 360-401).  NB the source binds the
`(voter_rewards, staker_rewards, _)` triple returned by
`calculate_rewards` to the names `(stakers_reward, voters_reward, _)`
(line 376) and then credits `self` with `stakers_reward` and the vote
account with `voters_reward`; the binding below reproduces that order. -/
def redeem_vote_credits (self : KeyedAccount) (vote_account : KeyedAccount)
    (rewards_account : KeyedAccount) (rewards : Rewards) (stake_history : StakeHistory) :
    Except InstructionError Unit × KeyedAccount × KeyedAccount × KeyedAccount :=
  match self.account.data with
  | AccountData.stake (StakeState.Stake stake) =>
    match rewards_account.account.data with
    | AccountData.stake StakeState.RewardsPool =>
      match vote_account.account.data with
      | AccountData.vote vote_state =>
        if stake.voter_pubkey ≠ vote_account.key then
          (Except.error InstructionError.InvalidArgument, self, vote_account, rewards_account)
        else
          match Stake.calculate_rewards stake rewards.validator_point_value vote_state
              (some stake_history) with
          | none =>
            (Except.error (InstructionError.CustomError 1), self, vote_account, rewards_account)
          | some (stakers_reward, voters_reward, credits_observed) =>
            if rewards_account.account.lamports < wadd stakers_reward voters_reward then
              (Except.error InstructionError.UnbalancedInstruction,
               self, vote_account, rewards_account)
            else
              (Except.ok (),
               { self with account :=
                 { lamports := wadd self.account.lamports stakers_reward,
                   data := AccountData.stake (StakeState.Stake
                     { stake with credits_observed := credits_observed }) } },
               { vote_account with account := { vote_account.account with
                   lamports := wadd vote_account.account.lamports voters_reward } },
               { rewards_account with account := { rewards_account.account with
                   lamports := wsub rewards_account.account.lamports
                     (wadd stakers_reward voters_reward) } })
      | _ => (Except.error InstructionError.InvalidAccountData, self, vote_account, rewards_account)
    | _ => (Except.error InstructionError.InvalidAccountData, self, vote_account, rewards_account)
  | _ => (Except.error InstructionError.InvalidAccountData, self, vote_account, rewards_account)

/-- Rust `withdraw` (lines 402-442). -/
def withdraw (self : KeyedAccount) (lamports : Nat) (to_account : KeyedAccount) (clock : Clock)
    (stake_history : StakeHistory) :
    Except InstructionError Unit × KeyedAccount × KeyedAccount :=
  if self.signer = false then
    (Except.error InstructionError.MissingRequiredSignature, self, to_account)
  else
    match self.account.data with
    | AccountData.stake (StakeState.Stake stake) =>
      let staked := if stake.deactivation_epoch ≤ clock.epoch
        then Stake.stake_at stake clock.epoch (some stake_history)
        else stake.stake
      if self.account.lamports - staked < lamports then
        (Except.error InstructionError.InsufficientFunds, self, to_account)
      else
        (Except.ok (),
         { self with account := { self.account with
             lamports := wsub self.account.lamports lamports } },
         { to_account with account := { to_account.account with
             lamports := wadd to_account.account.lamports lamports } })
    | AccountData.stake StakeState.Uninitialized =>
      if self.account.lamports < lamports then
        (Except.error InstructionError.InsufficientFunds, self, to_account)
      else
        (Except.ok (),
         { self with account := { self.account with
             lamports := wsub self.account.lamports lamports } },
         { to_account with account := { to_account.account with
             lamports := wadd to_account.account.lamports lamports } })
    | _ => (Except.error InstructionError.InvalidAccountData, self, to_account)

/-! ## Concrete instances used by the claim theorems -/

/-- A voter with lifetime credits 3, one completed epoch worth 2 credits,
and a commission split that sends everything to the staker
(commission 0): `commission_split total = (0, total, false)`. -/
def ex_vote_state : VoteState := ⟨3, [(0, 2, 0)], fun t => (⟨0, 1⟩, t, false)⟩

/-- A bootstrap stake of 1 lamport delegated to voter key 7. -/
def ex_stake_boot : Stake := ⟨7, 0, 1, U64MAX, U64MAX, default_config⟩

/-- A stake account holding `ex_stake_boot`, signed or not. -/
def ex_self (signed : Bool) : KeyedAccount :=
  ⟨1, signed, ⟨10, AccountData.stake (StakeState.Stake ex_stake_boot)⟩⟩

def ex_vote_acct : KeyedAccount := ⟨7, false, ⟨50, AccountData.vote ex_vote_state⟩⟩

def ex_pool : KeyedAccount := ⟨2, false, ⟨100, AccountData.stake StakeState.RewardsPool⟩⟩

/-- Scenario 3: 100 lamports, 42 of them delegated (never deactivated). -/
def w4_st : Stake := ⟨7, 0, 42, 0, U64MAX, default_config⟩

def w4_self : KeyedAccount := ⟨1, true, ⟨100, AccountData.stake (StakeState.Stake w4_st)⟩⟩

def w4_to : KeyedAccount := ⟨9, false, ⟨1, AccountData.other⟩⟩

def ua : KeyedAccount := ⟨1, false, ⟨10, AccountData.stake StakeState.Uninitialized⟩⟩

def uto : KeyedAccount := ⟨9, false, ⟨1, AccountData.other⟩⟩

/-! ## Helper lemmas -/

theorem wadd_eq_add (a b : Nat) (h : a + b < 2^64) : wadd a b = a + b := by
  unfold wadd U64MOD
  omega

theorem wsub_eq_sub (a b : Nat) (hb : b ≤ a) (ha : a < 2^64) : wsub a b = a - b := by
  unfold wsub U64MOD
  omega

theorem wmul_zero (a : Nat) : wmul a 0 = 0 := by
  unfold wmul U64MOD
  simp

theorem f64ofNat_zero : f64ofNat 0 = ⟨0, 1⟩ := rfl

theorem mulF64_zero_left (b : Frac) : mulF64 ⟨0, 1⟩ b = ⟨0, 1⟩ := by
  unfold mulF64 Frac.mul roundF64
  simp

theorem addF64_zero_zero : addF64 ⟨0, 1⟩ ⟨0, 1⟩ = ⟨0, 1⟩ := rfl

theorem frac_zero_lt_one : Frac.lt ⟨0, 1⟩ (Frac.ofNat 1) := by decide

section OpaqueArith

attribute [local irreducible] wadd wsub wmul warmup_inc cooldown_dec f64ofNat f64toU64
attribute [local irreducible] addF64 mulF64 divF64 roundF64 Frac.lt Frac.le

/-- A breaking warmup step returns a value bounded by `stake` whenever
the incoming `effective_stake` is. -/
theorem warmup_step_inl_le (stake : Nat) (rate : Frac) (history : StakeHistory)
    (epoch next_epoch eff : Nat) (entry : StakeHistoryEntry) (r : Nat)
    (h : eff ≤ stake)
    (hr : warmup_step stake rate history epoch next_epoch eff entry = Sum.inl r) :
    r ≤ stake := by
  unfold warmup_step at hr
  split at hr
  · cases hr
    omega
  · dsimp only at hr
    split at hr
    · cases hr
      omega
    · split at hr
      · cases hr
        omega
      · split at hr
        · cases hr
          omega
        · cases hr

/-- A continuing warmup step strictly decreases the remaining gap: the
updated `effective_stake` is strictly below `stake`, and the loop has
not yet reached `epoch`. -/
theorem warmup_step_inr (stake : Nat) (rate : Frac) (history : StakeHistory)
    (epoch next_epoch eff : Nat) (entry : StakeHistoryEntry) (p : Nat × StakeHistoryEntry)
    (hr : warmup_step stake rate history epoch next_epoch eff entry = Sum.inr p) :
    p.1 < stake ∧ wadd next_epoch 1 < epoch := by
  unfold warmup_step at hr
  split at hr
  · cases hr
  · dsimp only at hr
    split at hr
    · cases hr
    · split at hr
      · cases hr
      · split at hr
        · cases hr
        · cases hr
          exact ⟨by omega, by omega⟩

/-- A continuing cooldown step has not yet reached `epoch`. -/
theorem cooldown_step_inr (rate : Frac) (history : StakeHistory)
    (epoch next_epoch eff : Nat) (entry : StakeHistoryEntry) (p : Nat × StakeHistoryEntry)
    (hr : cooldown_step rate history epoch next_epoch eff entry = Sum.inr p) :
    wadd next_epoch 1 < epoch := by
  unfold cooldown_step at hr
  split at hr
  · cases hr
  · dsimp only at hr
    split at hr
    · cases hr
    · split at hr
      · cases hr
      · split at hr
        · cases hr
        · cases hr
          omega

/-- The warmup loop never exceeds `stake` when started at or below it. -/
theorem warmup_loop_le (stake : Nat) (rate : Frac) (history : StakeHistory) (epoch : Nat) :
    ∀ fuel next_epoch eff entry, eff ≤ stake →
      warmup_loop stake rate history epoch fuel next_epoch eff entry ≤ stake := by
  intro fuel
  induction fuel with
  | zero =>
    intro next_epoch eff entry h
    unfold warmup_loop
    cases hstep : warmup_step stake rate history epoch next_epoch eff entry with
    | inl r => exact warmup_step_inl_le _ _ _ _ _ _ _ _ h hstep
    | inr p => exact Nat.le_of_lt (warmup_step_inr _ _ _ _ _ _ _ _ hstep).1
  | succ f ih =>
    intro next_epoch eff entry h
    unfold warmup_loop
    cases hstep : warmup_step stake rate history epoch next_epoch eff entry with
    | inl r => exact warmup_step_inl_le _ _ _ _ _ _ _ _ h hstep
    | inr p =>
      exact ih _ _ _ (Nat.le_of_lt (warmup_step_inr _ _ _ _ _ _ _ _ hstep).1)

/-- Phase 1 (`stake_and_activating`) returns a pair summing to at most
the stake amount. -/
theorem stake_and_activating_le (s : Stake) (epoch : Nat) (history : Option StakeHistory)
    (hs : s.stake < 2^64) :
    (s.stake_and_activating epoch history).1 + (s.stake_and_activating epoch history).2 ≤
      s.stake := by
  unfold Stake.stake_and_activating
  split
  · simp
  · split
    · simp
    · split
      · simp
      · split
        · simp
        · split
          · simp
          · rename_i hh x en heq
            have hle := warmup_loop_le s.stake s.config.warmup_rate hh epoch
              (epoch - s.activation_epoch) s.activation_epoch 0 en (Nat.zero_le _)
            dsimp only
            rw [wsub_eq_sub _ _ hle hs]
            omega

/-- Claim C3: for every stake, every epoch strictly below the stake's
deactivation epoch and every (possibly absent or gapped) history, the
triple returned by `stake_activating_and_deactivating` satisfies
`effective + activating ≤ stake.stake` and `deactivating = 0`.
(`s.stake < 2^64` is the `u64` range of the field.) -/
theorem effective_plus_activating_le_stake (s : Stake) (epoch : Nat)
    (history : Option StakeHistory) (hd : epoch < s.deactivation_epoch)
    (hs : s.stake < 2^64) :
    (s.stake_activating_and_deactivating epoch history).1 +
        (s.stake_activating_and_deactivating epoch history).2.1 ≤ s.stake ∧
      (s.stake_activating_and_deactivating epoch history).2.2 = 0 := by
  have hb := stake_and_activating_le s epoch history hs
  unfold Stake.stake_activating_and_deactivating
  simp only [if_pos hd]
  exact ⟨hb, trivial⟩

/-- Claim C9: a signed `deactivate_stake` on an account in `Stake` state
succeeds for every current `deactivation_epoch` (re-deactivating an
already-deactivated stake overwrites the epoch, restarting cooldown),
and the `vote_account` argument is never inspected. -/
theorem deactivate_always_overwrites (self va1 va2 : KeyedAccount) (clock : Clock) (st : Stake)
    (hsig : self.signer = true)
    (hdata : self.account.data = AccountData.stake (StakeState.Stake st)) :
    (deactivate_stake self va1 clock).1 = Except.ok () ∧
    (deactivate_stake self va1 clock).2.account.data =
      AccountData.stake (StakeState.Stake { st with deactivation_epoch := clock.epoch }) ∧
    deactivate_stake self va1 clock = deactivate_stake self va2 clock := by
  unfold deactivate_stake Stake.deactivate
  rw [hsig, hdata]
  simp

/-- Claim C5 (amended): `delegate_stake`, `deactivate_stake` and
`withdraw` fail with `MissingRequiredSignature` when the stake account is
not signed, leaving every account unchanged; `redeem_vote_credits`
performs no signature check (see its counterexample). -/
theorem unsigned_ops_missing_signature (self va to_acct : KeyedAccount)
    (new_stake lam : Nat) (clock : Clock) (config : Config) (hist : StakeHistory)
    (hsig : self.signer = false) :
    delegate_stake self va new_stake clock config =
      (Except.error InstructionError.MissingRequiredSignature, self) ∧
    deactivate_stake self va clock =
      (Except.error InstructionError.MissingRequiredSignature, self) ∧
    withdraw self lam to_acct clock hist =
      (Except.error InstructionError.MissingRequiredSignature, self, to_acct) := by
  unfold delegate_stake deactivate_stake withdraw
  rw [hsig]
  simp

/-- Claim C6: every erroring call of `delegate_stake`,
`deactivate_stake`, `withdraw` or `redeem_vote_credits` leaves every
account it received (lamports and persisted state) exactly as it was. -/
theorem ops_error_leave_accounts_unchanged (self va to_acct rp : KeyedAccount)
    (new_stake lam : Nat) (clock : Clock) (config : Config) (rws : Rewards)
    (hist : StakeHistory) :
    (∀ e, (delegate_stake self va new_stake clock config).1 = Except.error e →
        (delegate_stake self va new_stake clock config).2 = self) ∧
    (∀ e, (deactivate_stake self va clock).1 = Except.error e →
        (deactivate_stake self va clock).2 = self) ∧
    (∀ e, (withdraw self lam to_acct clock hist).1 = Except.error e →
        (withdraw self lam to_acct clock hist).2.1 = self ∧
        (withdraw self lam to_acct clock hist).2.2 = to_acct) ∧
    (∀ e, (redeem_vote_credits self va rp rws hist).1 = Except.error e →
        (redeem_vote_credits self va rp rws hist).2.1 = self ∧
        (redeem_vote_credits self va rp rws hist).2.2.1 = va ∧
        (redeem_vote_credits self va rp rws hist).2.2.2 = rp) := by
  refine ⟨?_, ?_, ?_, ?_⟩
  · intro e
    unfold delegate_stake
    repeat' split
    all_goals intro h
    all_goals simp_all
  · intro e
    unfold deactivate_stake
    repeat' split
    all_goals intro h
    all_goals simp_all
  · intro e
    unfold withdraw
    dsimp only
    repeat' split
    all_goals intro h
    all_goals simp_all
  · intro e
    unfold redeem_vote_credits
    repeat' split
    all_goals intro h
    all_goals simp_all

/-- Claim C4: for a signed stake account in `Stake` state, `withdraw`
fails with `InsufficientFunds` exactly when the requested lamports
exceed `account.lamports` saturating-minus `locked`, where `locked` is
the effective stake at `clock.epoch` against the history once
`clock.epoch ≥ deactivation_epoch` and the full `stake.stake` field
before; on success exactly the requested lamports move from the stake
account to the destination.  (The `< 2^64` bounds are the `u64` ranges
of the balances.) -/
theorem withdraw_insufficient_funds_iff (self to_acct : KeyedAccount) (lam : Nat)
    (clock : Clock) (hist : StakeHistory) (st : Stake)
    (hsig : self.signer = true)
    (hdata : self.account.data = AccountData.stake (StakeState.Stake st))
    (hl : self.account.lamports < 2^64)
    (hto : to_acct.account.lamports + lam < 2^64) :
    ((withdraw self lam to_acct clock hist).1 =
        Except.error InstructionError.InsufficientFunds ↔
      self.account.lamports -
        (if st.deactivation_epoch ≤ clock.epoch
         then Stake.stake_at st clock.epoch (some hist) else st.stake) < lam) ∧
    (lam ≤ self.account.lamports -
        (if st.deactivation_epoch ≤ clock.epoch
         then Stake.stake_at st clock.epoch (some hist) else st.stake) →
      (withdraw self lam to_acct clock hist).1 = Except.ok () ∧
      (withdraw self lam to_acct clock hist).2.1.account.lamports =
        self.account.lamports - lam ∧
      (withdraw self lam to_acct clock hist).2.2.account.lamports =
        to_acct.account.lamports + lam ∧
      (withdraw self lam to_acct clock hist).2.1.account.data = self.account.data ∧
      (withdraw self lam to_acct clock hist).2.2.account.data = to_acct.account.data) := by
  unfold withdraw
  rw [hsig, if_neg (by simp), hdata]
  dsimp only
  by_cases hc : self.account.lamports -
      (if st.deactivation_epoch ≤ clock.epoch
       then Stake.stake_at st clock.epoch (some hist) else st.stake) < lam
  · simp only [if_pos hc]
    constructor
    · simp [hc]
    · intro hge
      omega
  · simp only [if_neg hc]
    constructor
    · simp [hc]
    · intro hge
      exact ⟨trivial, wsub_eq_sub _ _ (by omega) hl, wadd_eq_add _ _ hto, hdata, trivial⟩

/-- Every weight evaluation of the warmup loop sees
`effective_stake ≤ stake` when the loop is entered at or below it. -/
theorem warmup_weight_args_le (stake : Nat) (rate : Frac) (history : StakeHistory)
    (epoch : Nat) :
    ∀ fuel next_epoch eff entry, eff ≤ stake →
      ∀ v ∈ warmup_weight_args stake rate history epoch fuel next_epoch eff entry,
        v ≤ stake := by
  intro fuel
  induction fuel with
  | zero =>
    intro next_epoch eff entry h v hv
    unfold warmup_weight_args at hv
    split at hv
    · simp at hv
    · simp at hv
      omega
  | succ f ih =>
    intro next_epoch eff entry h v hv
    unfold warmup_weight_args at hv
    split at hv
    · simp at hv
    · rcases List.mem_cons.mp hv with hv | hv
      · omega
      · cases hstep : warmup_step stake rate history epoch next_epoch eff entry with
        | inl r =>
          rw [hstep] at hv
          simp at hv
        | inr p =>
          rw [hstep] at hv
          exact ih _ _ _ (Nat.le_of_lt (warmup_step_inr _ _ _ _ _ _ _ _ hstep).1) v hv

/-- Every weight evaluation of the warmup loop sees
`effective_stake < stake` when the loop is entered strictly below it. -/
theorem warmup_weight_args_lt (stake : Nat) (rate : Frac) (history : StakeHistory)
    (epoch : Nat) :
    ∀ fuel next_epoch eff entry, eff < stake →
      ∀ v ∈ warmup_weight_args stake rate history epoch fuel next_epoch eff entry,
        v < stake := by
  intro fuel
  induction fuel with
  | zero =>
    intro next_epoch eff entry h v hv
    unfold warmup_weight_args at hv
    split at hv
    · simp at hv
    · simp at hv
      omega
  | succ f ih =>
    intro next_epoch eff entry h v hv
    unfold warmup_weight_args at hv
    split at hv
    · simp at hv
    · rcases List.mem_cons.mp hv with hv | hv
      · omega
      · cases hstep : warmup_step stake rate history epoch next_epoch eff entry with
        | inl r =>
          rw [hstep] at hv
          simp at hv
        | inr p =>
          rw [hstep] at hv
          exact ih _ _ _ (warmup_step_inr _ _ _ _ _ _ _ _ hstep).1 v hv

/-- The warmup loop result is fuel-insensitive once the fuel dominates
the Rust iteration bound `epoch - next_epoch - 1`: the loop terminates
through one of its break conditions before the fuel is consumed. -/
theorem warmup_loop_fuel_succ (stake : Nat) (rate : Frac) (history : StakeHistory)
    (epoch : Nat) :
    ∀ fuel next_epoch eff entry, next_epoch < epoch → epoch < 2^64 →
      epoch ≤ next_epoch + 1 + fuel →
      warmup_loop stake rate history epoch (fuel+1) next_epoch eff entry =
        warmup_loop stake rate history epoch fuel next_epoch eff entry := by
  intro fuel
  induction fuel with
  | zero =>
    intro next_epoch eff entry hn he hf
    unfold warmup_loop
    cases hstep : warmup_step stake rate history epoch next_epoch eff entry with
    | inl r => rfl
    | inr p =>
      have hlt := (warmup_step_inr _ _ _ _ _ _ _ _ hstep).2
      rw [wadd_eq_add next_epoch 1 (by omega)] at hlt
      omega
  | succ f ih =>
    intro next_epoch eff entry hn he hf
    unfold warmup_loop
    cases hstep : warmup_step stake rate history epoch next_epoch eff entry with
    | inl r => rfl
    | inr p =>
      have hlt := (warmup_step_inr _ _ _ _ _ _ _ _ hstep).2
      have hw : wadd next_epoch 1 = next_epoch + 1 := wadd_eq_add next_epoch 1 (by omega)
      rw [hw] at hlt ⊢
      exact ih (next_epoch + 1) _ _ hlt he (by omega)

/-- The cooldown loop result is fuel-insensitive once the fuel dominates
the Rust iteration bound `epoch - next_epoch - 1`. -/
theorem cooldown_loop_fuel_succ (rate : Frac) (history : StakeHistory) (epoch : Nat) :
    ∀ fuel next_epoch eff entry, next_epoch < epoch → epoch < 2^64 →
      epoch ≤ next_epoch + 1 + fuel →
      cooldown_loop rate history epoch (fuel+1) next_epoch eff entry =
        cooldown_loop rate history epoch fuel next_epoch eff entry := by
  intro fuel
  induction fuel with
  | zero =>
    intro next_epoch eff entry hn he hf
    unfold cooldown_loop
    cases hstep : cooldown_step rate history epoch next_epoch eff entry with
    | inl r => rfl
    | inr p =>
      have hlt := cooldown_step_inr _ _ _ _ _ _ _ hstep
      rw [wadd_eq_add next_epoch 1 (by omega)] at hlt
      omega
  | succ f ih =>
    intro next_epoch eff entry hn he hf
    unfold cooldown_loop
    cases hstep : cooldown_step rate history epoch next_epoch eff entry with
    | inl r => rfl
    | inr p =>
      have hlt := cooldown_step_inr _ _ _ _ _ _ _ hstep
      have hw : wadd next_epoch 1 = next_epoch + 1 := wadd_eq_add next_epoch 1 (by omega)
      rw [hw] at hlt ⊢
      exact ih (next_epoch + 1) _ _ hlt he (by omega)

/-- Claim C10 (amended): at every evaluation of the weight expression
`(self.stake - effective_stake) as f64` inside the warmup loop (the loop
is entered with `effective_stake = 0`), `effective_stake ≤ self.stake`
holds — strictly whenever `self.stake > 0` — so the `u64` subtraction
never underflows; and both loops terminate within the Rust iteration
bound: their value is fuel-insensitive beyond `epoch - next_epoch - 1`
steps, so `stake_and_activating` and `stake_activating_and_deactivating`
are total.  (The original claim's strict `effective_stake < self.stake`
fails when `self.stake = 0`; see the counterexample.) -/
theorem warmup_weight_no_underflow (stake : Nat) (rate : Frac) (history : StakeHistory)
    (epoch fuel next_epoch : Nat) (entry : StakeHistoryEntry) (hstake : stake < 2^64) :
    (∀ v ∈ warmup_weight_args stake rate history epoch fuel next_epoch 0 entry,
        v ≤ stake ∧ (0 < stake → v < stake) ∧ wsub stake v = stake - v) ∧
    (∀ eff e2, next_epoch < epoch → epoch < 2^64 → epoch ≤ next_epoch + 1 + fuel →
        warmup_loop stake rate history epoch (fuel+1) next_epoch eff e2 =
          warmup_loop stake rate history epoch fuel next_epoch eff e2) ∧
    (∀ eff e2, next_epoch < epoch → epoch < 2^64 → epoch ≤ next_epoch + 1 + fuel →
        cooldown_loop rate history epoch (fuel+1) next_epoch eff e2 =
          cooldown_loop rate history epoch fuel next_epoch eff e2) := by
  refine ⟨?_, ?_, ?_⟩
  · intro v hv
    have hle := warmup_weight_args_le stake rate history epoch fuel next_epoch 0 entry
      (Nat.zero_le _) v hv
    refine ⟨hle, ?_, wsub_eq_sub _ _ hle hstake⟩
    intro hpos
    exact warmup_weight_args_lt stake rate history epoch fuel next_epoch 0 entry hpos v hv
  · intro eff e2 hn he hf
    exact warmup_loop_fuel_succ stake rate history epoch fuel next_epoch eff e2 hn he hf
  · intro eff e2 hn he hf
    exact cooldown_loop_fuel_succ rate history epoch fuel next_epoch eff e2 hn he hf

/-- The watermark component of the reward fold is the running maximum of
the entries' end-of-epoch credits. -/
theorem calc_step_fold_fst (s : Stake) (pv : Frac) (hist : Option StakeHistory) :
    ∀ (l : List (Nat × Nat × Nat)) (co : Nat) (t : Frac),
      (l.foldl (calc_step s pv hist) (co, t)).1 =
        l.foldl (fun w e => max w e.2.1) co := by
  intro l
  induction l with
  | nil =>
    intro co t
    rfl
  | cons e rest ih =>
    intro co t
    simp only [List.foldl]
    rw [ih]
    rfl

theorem foldl_max_le (l : List (Nat × Nat × Nat)) :
    ∀ (co b : Nat), co ≤ b → (∀ e ∈ l, e.2.1 ≤ b) →
      l.foldl (fun w e => max w e.2.1) co ≤ b := by
  induction l with
  | nil =>
    intro co b h _
    exact h
  | cons e rest ih =>
    intro co b h hall
    simp only [List.foldl]
    refine ih _ _ ?_ (fun x hx => hall x (List.mem_cons_of_mem _ hx))
    have := hall e (List.mem_cons_self _ _)
    omega

theorem le_foldl_max (l : List (Nat × Nat × Nat)) :
    ∀ co, co ≤ l.foldl (fun w e => max w e.2.1) co := by
  induction l with
  | nil =>
    intro co
    exact Nat.le_refl _
  | cons e rest ih =>
    intro co
    simp only [List.foldl]
    have h1 : co ≤ max co e.2.1 := Nat.le_max_left _ _
    exact Nat.le_trans h1 (ih _)

theorem mem_le_foldl_max (l : List (Nat × Nat × Nat)) :
    ∀ co e, e ∈ l → e.2.1 ≤ l.foldl (fun w e => max w e.2.1) co := by
  induction l with
  | nil =>
    intro co e he
    simp at he
  | cons a rest ih =>
    intro co e he
    simp only [List.foldl]
    rcases List.mem_cons.mp he with rfl | he
    · exact Nat.le_trans (Nat.le_max_right _ _) (le_foldl_max rest _)
    · exact ih _ e he

/-- When an entry has already been fully observed, the reward fold step
adds nothing to the (zero) running total. -/
theorem calc_step_total_zero (s : Stake) (pv : Frac) (hist : Option StakeHistory)
    (co : Nat) (e : Nat × Nat × Nat)
    (h1 : e.2.1 ≤ s.credits_observed) (h2 : e.2.2 ≤ s.credits_observed) :
    calc_step s pv hist (co, ⟨0, 1⟩) e = (max co e.2.1, ⟨0, 1⟩) := by
  unfold calc_step
  rw [if_neg (by omega), if_neg (by omega)]
  dsimp only
  rw [wmul_zero, f64ofNat_zero, mulF64_zero_left, addF64_zero_zero]

theorem calc_step_fold_total_zero (s : Stake) (pv : Frac) (hist : Option StakeHistory) :
    ∀ (l : List (Nat × Nat × Nat)),
      (∀ e ∈ l, e.2.1 ≤ s.credits_observed ∧ e.2.2 ≤ s.credits_observed) →
      ∀ co, (l.foldl (calc_step s pv hist) (co, ⟨0, 1⟩)).2 = ⟨0, 1⟩ := by
  intro l
  induction l with
  | nil =>
    intro _ co
    rfl
  | cons e rest ih =>
    intro hall co
    have he := hall e (List.mem_cons_self _ _)
    simp only [List.foldl]
    rw [calc_step_total_zero s pv hist co e he.1 he.2]
    exact ih (fun x hx => hall x (List.mem_cons_of_mem _ hx)) _

/-- Unpacking the §6 contract: every yielded entry is internally
nondecreasing and below the lifetime counter. -/
theorem epochCreditsWF_mem (credits : Nat) :
    ∀ l, epochCreditsWF credits l = true →
      ∀ e ∈ l, e.2.2 ≤ e.2.1 ∧ e.2.1 ≤ credits := by
  intro l
  induction l with
  | nil =>
    intro _ e he
    simp at he
  | cons a rest ih =>
    intro hwf e he
    unfold epochCreditsWF at hwf
    simp only [Bool.and_eq_true, decide_eq_true_eq] at hwf
    rcases List.mem_cons.mp he with rfl | he
    · exact ⟨hwf.1.1.1, hwf.1.1.2⟩
    · exact ih hwf.2 e he

/-- A successful `calculate_rewards` moves the watermark strictly above
the old `credits_observed` and keeps it at most the voter lifetime
credit count, given the §6 contract on `epoch_credits`. -/
theorem calculate_rewards_watermark (s : Stake) (pv : Frac) (vs : VoteState)
    (hist : Option StakeHistory)
    (hwf : epochCreditsWF vs.credits vs.epoch_credits = true)
    (a b c : Nat)
    (hsome : Stake.calculate_rewards s pv vs hist = some (a, b, c)) :
    s.credits_observed < c ∧ c ≤ vs.credits := by
  have hmem := epochCreditsWF_mem vs.credits vs.epoch_credits hwf
  unfold Stake.calculate_rewards at hsome
  split at hsome
  · cases hsome
  · rename_i hguard
    dsimp only at hsome
    split at hsome
    · cases hsome
    · rename_i htotal
      split at hsome
      · cases hsome
      · simp only [Option.some.injEq, Prod.mk.injEq] at hsome
        obtain ⟨-, -, hc⟩ := hsome
        rw [calc_step_fold_fst] at hc
        subst hc
        constructor
        · by_contra hcc
          push_neg at hcc
          have hz := calc_step_fold_total_zero s pv hist vs.epoch_credits
            (fun e he => ⟨Nat.le_trans (mem_le_foldl_max _ _ e he) hcc,
              Nat.le_trans (Nat.le_trans (hmem e he).1 (mem_le_foldl_max _ _ e he)) hcc⟩)
            s.credits_observed
          rw [hz] at htotal
          exact htotal frac_zero_lt_one
        · exact foldl_max_le _ _ _ (by omega) (fun e he => (hmem e he).2)

/-- Claim C7: every successful `redeem_vote_credits` leaves the stake's
`credits_observed` strictly greater than before the call and at most the
voter's lifetime `credits`, for every voter state whose `epoch_credits`
satisfies the §6 contract. -/
theorem redeem_advances_credits_observed (self vote_account rewards_account : KeyedAccount)
    (rewards : Rewards) (stake_history : StakeHistory) (st : Stake) (vs : VoteState)
    (hself : self.account.data = AccountData.stake (StakeState.Stake st))
    (hvote : vote_account.account.data = AccountData.vote vs)
    (hwf : epochCreditsWF vs.credits vs.epoch_credits = true)
    (hok : (redeem_vote_credits self vote_account rewards_account rewards stake_history).1 =
      Except.ok ()) :
    ∃ st2,
      (redeem_vote_credits self vote_account rewards_account rewards
          stake_history).2.1.account.data =
        AccountData.stake (StakeState.Stake st2) ∧
      st.credits_observed < st2.credits_observed ∧
      st2.credits_observed ≤ vs.credits := by
  unfold redeem_vote_credits at hok ⊢
  rw [hself, hvote] at hok ⊢
  dsimp only at hok ⊢
  split at hok
  all_goals try (exact Except.noConfusion hok)
  rename_i hres
  rw [hres]
  try dsimp only
  split at hok
  all_goals try (exact Except.noConfusion hok)
  rename_i hpk
  rw [if_neg hpk]
  split at hok
  all_goals try (exact Except.noConfusion hok)
  rename_i a b c hcalc
  split at hok
  all_goals try (exact Except.noConfusion hok)
  rename_i hbal
  rw [if_neg hbal]
  refine ⟨{ st with credits_observed := c }, rfl, ?_, ?_⟩
  · exact (calculate_rewards_watermark st _ vs _ hwf a b c hcalc).1
  · exact (calculate_rewards_watermark st _ vs _ hwf a b c hcalc).2

end OpaqueArith

/-! ## Concrete claim theorems, counterexamples and witnesses -/

/-- Claim C2: the stake `{stake := 1000, activation_epoch := 0,
deactivation_epoch := 5}` against an empty stake history follows the
step function: `(0,1000,0)` at epoch 0, `(1000,0,0)` at each of epochs
1..4, `(1000,0,1000)` at epoch 5, `(0,0,0)` at epoch 6. -/
theorem warmup_step_function_empty_history :
    Stake.stake_activating_and_deactivating ⟨0, 0, 1000, 0, 5, default_config⟩ 0 (some []) =
      (0, 1000, 0) ∧
    Stake.stake_activating_and_deactivating ⟨0, 0, 1000, 0, 5, default_config⟩ 1 (some []) =
      (1000, 0, 0) ∧
    Stake.stake_activating_and_deactivating ⟨0, 0, 1000, 0, 5, default_config⟩ 2 (some []) =
      (1000, 0, 0) ∧
    Stake.stake_activating_and_deactivating ⟨0, 0, 1000, 0, 5, default_config⟩ 3 (some []) =
      (1000, 0, 0) ∧
    Stake.stake_activating_and_deactivating ⟨0, 0, 1000, 0, 5, default_config⟩ 4 (some []) =
      (1000, 0, 0) ∧
    Stake.stake_activating_and_deactivating ⟨0, 0, 1000, 0, 5, default_config⟩ 5 (some []) =
      (1000, 0, 1000) ∧
    Stake.stake_activating_and_deactivating ⟨0, 0, 1000, 0, 5, default_config⟩ 6 (some []) =
      (0, 0, 0) := by decide

/-- Claim C8: the same stake against the history `{0 ↦ (effective 1000,
activating 1000)}` (no entry for epoch 1) yields, at epoch 2, the triple
`(increment, 1000 - increment, 0)` with
`increment = max 1 (trunc (1000 · warmup_rate))` where the
multiplication is exact IEEE-754 binary64 (left-to-right), the cast to
`u64` truncates toward zero, and the `max 1` clamp follows the
truncation. -/
theorem warmup_with_history_entry_increment :
    Stake.stake_activating_and_deactivating ⟨0, 0, 1000, 0, 5, default_config⟩ 2
        (some [(0, ⟨1000, 1000, 0⟩)]) =
      (max 1 (f64toU64 (mulF64 (f64ofNat 1000) default_config.warmup_rate)),
       1000 - max 1 (f64toU64 (mulF64 (f64ofNat 1000) default_config.warmup_rate)),
       0) := by decide

/-- Claim C1 is contradicted by the code: on this successful redemption
`calculate_rewards` returns the commission split in the documented order
`(voter_reward, staker_reward, new_credits) = (0, 2, 2)`, yet the stake
account's lamports grow by the voter component 0 (staying at 10) and the
vote account's by the staker component 2, because `redeem_vote_credits`
destructures the triple under the swapped names
`(stakers_reward, voters_reward, _)`.  The claim (and the spec) say the
stake account gains the `staker_reward` component 2. -/
theorem redeem_pays_voter_component_to_stake_account :
    Stake.calculate_rewards ex_stake_boot ⟨1, 1⟩ ex_vote_state (some []) = some (0, 2, 2) ∧
    (redeem_vote_credits (ex_self true) ex_vote_acct ex_pool ⟨⟨1, 1⟩⟩ []).1 = Except.ok () ∧
    (redeem_vote_credits (ex_self true) ex_vote_acct ex_pool ⟨⟨1, 1⟩⟩ []).2.1.account.lamports =
      10 ∧
    (redeem_vote_credits (ex_self true) ex_vote_acct ex_pool ⟨⟨1, 1⟩⟩ []).2.2.1.account.lamports =
      52 ∧
    (redeem_vote_credits (ex_self true) ex_vote_acct ex_pool ⟨⟨1, 1⟩⟩ []).2.2.2.account.lamports =
      98 :=
  ⟨rfl, rfl, rfl, rfl, rfl⟩

/-- Claim C5 fails for `redeem_vote_credits`: the source has no
signature check there, so with the stake account unsigned the call still
succeeds instead of failing with `MissingRequiredSignature`. -/
theorem redeem_succeeds_unsigned :
    (ex_self false).signer = false ∧
    (redeem_vote_credits (ex_self false) ex_vote_acct ex_pool ⟨⟨1, 1⟩⟩ []).1 = Except.ok () :=
  ⟨rfl, rfl⟩

/-- Claim C10's strict bound fails at `stake = 0`: querying the stake
`{stake := 0, activation_epoch := 0, deactivation_epoch := 5}` at epoch
1 against a history with an activating entry at epoch 0 reaches the
warmup loop, which evaluates the weight expression once, at
`effective_stake = 0 = self.stake` — not strictly below it. -/
theorem warmup_weight_strict_bound_fails :
    0 ∈ warmup_weight_args 0 default_config.warmup_rate [(0, ⟨1, 1, 0⟩)] 1 1 0 0 ⟨1, 1, 0⟩ ∧
    ¬ (0 < (0 : Nat)) ∧
    Stake.stake_and_activating ⟨0, 0, 0, 0, 5, default_config⟩ 1 (some [(0, ⟨1, 1, 0⟩)]) =
      (0, 0) := by decide

/-- Witness for claim C3 at a concrete input. -/
theorem effective_plus_activating_le_stake_w :
    ((3 : Nat) < 5 ∧ (1000 : Nat) < 2^64) ∧
    ((Stake.stake_activating_and_deactivating ⟨0, 0, 1000, 0, 5, default_config⟩ 3
          (some [])).1 +
        (Stake.stake_activating_and_deactivating ⟨0, 0, 1000, 0, 5, default_config⟩ 3
          (some [])).2.1 ≤ 1000 ∧
      (Stake.stake_activating_and_deactivating ⟨0, 0, 1000, 0, 5, default_config⟩ 3
        (some [])).2.2 = 0) :=
  ⟨⟨by decide, by decide⟩,
   effective_plus_activating_le_stake ⟨0, 0, 1000, 0, 5, default_config⟩ 3 (some [])
     (by decide) (by decide)⟩

/-- Witness for claim C4 at scenario 3's input: 100 lamports, 42
delegated and not deactivated at epoch 0, withdrawing 58. -/
theorem withdraw_insufficient_funds_iff_w :
    (w4_self.signer = true ∧
      w4_self.account.data = AccountData.stake (StakeState.Stake w4_st) ∧
      w4_self.account.lamports < 2^64 ∧ w4_to.account.lamports + 58 < 2^64) ∧
    (((withdraw w4_self 58 w4_to ⟨0⟩ []).1 =
        Except.error InstructionError.InsufficientFunds ↔
      w4_self.account.lamports -
        (if w4_st.deactivation_epoch ≤ (0 : Nat)
         then Stake.stake_at w4_st 0 (some []) else w4_st.stake) < 58) ∧
    (58 ≤ w4_self.account.lamports -
        (if w4_st.deactivation_epoch ≤ (0 : Nat)
         then Stake.stake_at w4_st 0 (some []) else w4_st.stake) →
      (withdraw w4_self 58 w4_to ⟨0⟩ []).1 = Except.ok () ∧
      (withdraw w4_self 58 w4_to ⟨0⟩ []).2.1.account.lamports =
        w4_self.account.lamports - 58 ∧
      (withdraw w4_self 58 w4_to ⟨0⟩ []).2.2.account.lamports =
        w4_to.account.lamports + 58 ∧
      (withdraw w4_self 58 w4_to ⟨0⟩ []).2.1.account.data = w4_self.account.data ∧
      (withdraw w4_self 58 w4_to ⟨0⟩ []).2.2.account.data = w4_to.account.data)) :=
  ⟨⟨rfl, rfl, by decide, by decide⟩,
   withdraw_insufficient_funds_iff w4_self w4_to 58 ⟨0⟩ [] w4_st rfl rfl
     (by decide) (by decide)⟩

/-- Witness for claim C5 (amended) at an unsigned concrete account. -/
theorem unsigned_ops_missing_signature_w :
    ua.signer = false ∧
    (delegate_stake ua ex_vote_acct 0 ⟨1⟩ default_config =
        (Except.error InstructionError.MissingRequiredSignature, ua) ∧
      deactivate_stake ua ex_vote_acct ⟨1⟩ =
        (Except.error InstructionError.MissingRequiredSignature, ua) ∧
      withdraw ua 1 uto ⟨1⟩ [] =
        (Except.error InstructionError.MissingRequiredSignature, ua, uto)) :=
  ⟨rfl, unsigned_ops_missing_signature ua ex_vote_acct uto 0 1 ⟨1⟩ default_config [] rfl⟩

/-- Witness for claim C6: an unsigned withdraw errors and both accounts
come back untouched. -/
theorem ops_error_leave_accounts_unchanged_w :
    (withdraw ua 1 uto ⟨0⟩ []).1 = Except.error InstructionError.MissingRequiredSignature ∧
    (withdraw ua 1 uto ⟨0⟩ []).2.1 = ua ∧ (withdraw ua 1 uto ⟨0⟩ []).2.2 = uto :=
  ⟨rfl,
   ((ops_error_leave_accounts_unchanged ua ex_vote_acct uto ex_pool 0 1 ⟨0⟩ default_config
       ⟨⟨1, 1⟩⟩ []).2.2.1 InstructionError.MissingRequiredSignature rfl).1,
   ((ops_error_leave_accounts_unchanged ua ex_vote_acct uto ex_pool 0 1 ⟨0⟩ default_config
       ⟨⟨1, 1⟩⟩ []).2.2.1 InstructionError.MissingRequiredSignature rfl).2⟩

/-- Witness for claim C7 at a concrete successful redemption. -/
theorem redeem_advances_credits_observed_w :
    ((ex_self true).account.data = AccountData.stake (StakeState.Stake ex_stake_boot) ∧
      ex_vote_acct.account.data = AccountData.vote ex_vote_state ∧
      epochCreditsWF ex_vote_state.credits ex_vote_state.epoch_credits = true ∧
      (redeem_vote_credits (ex_self true) ex_vote_acct ex_pool ⟨⟨1, 1⟩⟩ []).1 =
        Except.ok ()) ∧
    (∃ st2,
      (redeem_vote_credits (ex_self true) ex_vote_acct ex_pool ⟨⟨1, 1⟩⟩
          []).2.1.account.data = AccountData.stake (StakeState.Stake st2) ∧
      ex_stake_boot.credits_observed < st2.credits_observed ∧
      st2.credits_observed ≤ ex_vote_state.credits) :=
  ⟨⟨rfl, rfl, rfl, rfl⟩,
   redeem_advances_credits_observed (ex_self true) ex_vote_acct ex_pool ⟨⟨1, 1⟩⟩ []
     ex_stake_boot ex_vote_state rfl rfl rfl rfl⟩

/-- Witness for claim C9: deactivating a signed, already-deactivated
stake overwrites the deactivation epoch with the clock epoch. -/
theorem deactivate_always_overwrites_w :
    ((ex_self true).signer = true ∧
      (ex_self true).account.data = AccountData.stake (StakeState.Stake ex_stake_boot)) ∧
    ((deactivate_stake (ex_self true) ex_vote_acct ⟨3⟩).1 = Except.ok () ∧
      (deactivate_stake (ex_self true) ex_vote_acct ⟨3⟩).2.account.data =
        AccountData.stake (StakeState.Stake
          { ex_stake_boot with deactivation_epoch := 3 }) ∧
      deactivate_stake (ex_self true) ex_vote_acct ⟨3⟩ =
        deactivate_stake (ex_self true) ex_pool ⟨3⟩) :=
  ⟨⟨rfl, rfl⟩,
   deactivate_always_overwrites (ex_self true) ex_vote_acct ex_pool ⟨3⟩ ex_stake_boot rfl rfl⟩

/-- Witness for claim C10 (amended) at a concrete input. -/
theorem warmup_weight_no_underflow_w :
    ((5 : Nat) < 2^64 ∧ 0 ∈ warmup_weight_args 5 ⟨1, 1⟩ [] 2 3 0 0 ⟨3, 1, 0⟩ ∧
      (0 : Nat) < 2 ∧ (2 : Nat) < 2^64 ∧ (2 : Nat) ≤ 0 + 1 + 3) ∧
    ((0 ≤ 5 ∧ (0 < 5 → 0 < 5) ∧ wsub 5 0 = 5 - 0) ∧
      warmup_loop 5 ⟨1, 1⟩ [] 2 4 0 7 ⟨3, 1, 0⟩ = warmup_loop 5 ⟨1, 1⟩ [] 2 3 0 7 ⟨3, 1, 0⟩ ∧
      cooldown_loop ⟨1, 1⟩ [] 2 4 0 7 ⟨3, 1, 0⟩ = cooldown_loop ⟨1, 1⟩ [] 2 3 0 7 ⟨3, 1, 0⟩) :=
  ⟨⟨by decide, by decide, by decide, by decide, by decide⟩,
   (warmup_weight_no_underflow 5 ⟨1, 1⟩ [] 2 3 0 ⟨3, 1, 0⟩ (by decide)).1 0 (by decide),
   (warmup_weight_no_underflow 5 ⟨1, 1⟩ [] 2 3 0 ⟨3, 1, 0⟩ (by decide)).2.1 7 ⟨3, 1, 0⟩
     (by decide) (by decide) (by decide),
   (warmup_weight_no_underflow 5 ⟨1, 1⟩ [] 2 3 0 ⟨3, 1, 0⟩ (by decide)).2.2 7 ⟨3, 1, 0⟩
     (by decide) (by decide) (by decide)⟩
